import Mathlib

/-!
# Verification of the PDF editing job/version pipeline

Shallow embedding of the version-chain state machine of
`src/routers/pdf.py` and of the pure helpers of
`src/processors/pdf_ops.py`, together with theorems settling the
claims about them.

Conventions:
* Python strings are Lean `String`s, Python numbers that the claims
  care about are `Nat` (version numbers, cursor) or `ℚ` (page-geometry
  and font arithmetic; the float operations involved — subtraction,
  absolute value, comparison, scaling — are exact on the inputs the
  claims touch, so `ℚ` is a faithful carrier).
* Exception control flow is modelled with `Option`/sum-like result
  types: a Python function that may raise is a Lean function returning
  a result constructor per outcome.
* The Redis record is the "persisted" `Job`; an HTTP handler that
  raises without calling `save_job` leaves the persisted job unchanged,
  which the embedding reflects by returning the input job in those
  branches.
-/

namespace Pdf

/-- `MAX_VERSIONS = 5` (src/routers/pdf.py, line 45). -/
def MAX_VERSIONS : Nat := 5

/-- Default of `PDF_STORAGE_ROOT` (src/routers/pdf.py, line 38). -/
def STORAGE_ROOT : String := "/var/app/storage/pdf"

/-- `job_folder(job_id)` = `os.path.join(STORAGE_ROOT, job_id)`
(src/routers/pdf.py, lines 240–241). -/
def job_folder (jobId : String) : String :=
  STORAGE_ROOT ++ "/" ++ jobId

/-- `version_path(job_id, v)` = `os.path.join(job_folder(job_id), f"v{v}.pdf")`
(src/routers/pdf.py, lines 244–245). -/
def version_path (jobId : String) (v : Nat) : String :=
  job_folder jobId ++ "/" ++ ("v" ++ Nat.repr v ++ ".pdf")

/-- `preview_folder(job_id)` (src/routers/pdf.py, lines 231–232). -/
def preview_folder (jobId : String) : String :=
  job_folder jobId ++ "/" ++ "previews"

/-- `preview_path(job_id, version, page, dpi)` =
`os.path.join(preview_folder(job_id), f"v{version}_p{page}_dpi{dpi}.png")`
(src/routers/pdf.py, lines 235–237). -/
def preview_path (jobId : String) (version page dpi : Nat) : String :=
  preview_folder jobId ++ "/" ++
    ("v" ++ Nat.repr version ++ "_p" ++ Nat.repr page ++ "_dpi" ++ Nat.repr dpi ++ ".png")

/-- One entry of `Job.versions`: the dict `{"v": v, "path": path}`
(src/routers/pdf.py, lines 344 and 490). -/
structure Version where
  v : Nat
  path : String
deriving DecidableEq, Repr

/-- The `Job` dataclass (src/routers/pdf.py, lines 165–174), restricted to
the fields the pipeline mutates (`jobId`, `createdAt`, `expiresAt` are
opaque identity/TTL data carried along unchanged by apply/undo/redo). -/
structure Job where
  status : String
  cursor : Nat
  versions : List Version
  lastTool : Option String := none
  lastError : Option String := none
deriving DecidableEq, Repr

/-- `Job.active_version` (src/routers/pdf.py, lines 176–178):
`versions[cursor - 1]["v"]`.  Python raises `IndexError` when the index is
out of range; the embedding totalises with a default entry, which is never
hit on jobs satisfying the invariant. -/
def Job.active_version (job : Job) : Nat :=
  (job.versions.getD (job.cursor - 1) ⟨0, ""⟩).v

/-- `Job.active_path` (src/routers/pdf.py, lines 180–182). -/
def Job.active_path (job : Job) : String :=
  (job.versions.getD (job.cursor - 1) ⟨0, ""⟩).path

/-- The job produced by `create_job` (src/routers/pdf.py, lines 331–347):
version 1 at `version_path(job_id, 1)`, cursor 1, status `"done"`. -/
def create_job (jobId : String) : Job :=
  { status := "done"
    cursor := 1
    versions := [⟨1, version_path jobId 1⟩]
    lastTool := some "create"
    lastError := none }

/-- Result of running the selected tool's transformation inside the `try:`
block of `apply_tool` (src/routers/pdf.py, lines 417–488): it either
returns normally, raises `ValueError` (invalid page etc., line 506), or
raises some other exception (line 511). -/
inductive ToolOutcome where
  | ok
  | valueError (msg : String)
  | exception (msg : String)
deriving DecidableEq, Repr

/-- Observable outcome of one `apply_tool` request, carrying the job state
that was persisted with `save_job` where the code persists one.
* `success job written`: lines 490–504 — job saved, `written` is the new
  version file path the tool wrote.
* `versionLimit`: line 410–411 — HTTP 409, nothing saved.
* `internalError`: `versions[-1]` on an empty list (line 414) raises
  `IndexError` outside the `try:` block — nothing saved.
* `badOptions`: `ValueError`, the `merge` rejection, or an unknown tool —
  HTTP 400 via `err`, nothing saved (lines 418–419, 487–488, 506–508).
* `processingFailed job`: lines 511–516 — job saved with
  `status="failed"` before HTTP 500 is raised. -/
inductive ApplyResult where
  | success (job : Job) (written : String)
  | versionLimit
  | internalError
  | badOptions
  | processingFailed (job : Job)
deriving DecidableEq, Repr

/-- The four tools whose dispatch can reach the transformation code
(src/routers/pdf.py, lines 421–485). -/
def applyTools : List String :=
  ["rotate", "watermark_text", "watermark_image", "draw_signature"]

/-- The redo-tail truncation of `apply_tool` (src/routers/pdf.py, lines
406–408): `if job.cursor < len(job.versions): job.versions = job.versions[:job.cursor]`. -/
def trunc (job : Job) : List Version :=
  if job.cursor < job.versions.length then job.versions.take job.cursor
  else job.versions

/-- `apply_tool` (src/routers/pdf.py, lines 391–516), state-level slice:

* line 407–408: redo-tail truncation (`trunc`);
* line 410–411: `VERSION_LIMIT` rejection when `len(versions) >= MAX_VERSIONS`;
* line 414: `new_v = versions[-1]["v"] + 1` (computed after truncation);
* line 415: `dst = version_path(job_id, new_v)`;
* lines 417–488: tool dispatch — `merge` and unknown tools raise HTTP 400;
  the real tools run with result `outcome`;
* lines 490–494 / 506–516: persistence as described on `ApplyResult`. -/
def apply_tool (jobId tool : String) (job : Job) (outcome : ToolOutcome) : ApplyResult :=
  let vs := trunc job
  if MAX_VERSIONS ≤ vs.length then
    .versionLimit
  else
    match vs.getLast? with
    | none => .internalError
    | some last =>
      let newV := last.v + 1
      let dst := version_path jobId newV
      if tool = "merge" then .badOptions
      else if tool ∈ applyTools then
        match outcome with
        | .ok =>
          let vs2 := vs ++ [⟨newV, dst⟩]
          .success { job with versions := vs2, cursor := vs2.length,
                              lastTool := some tool, lastError := none } dst
        | .valueError _ => .badOptions
        | .exception msg =>
          .processingFailed { job with versions := vs, status := "failed",
                                       lastTool := some tool, lastError := some msg }
      else .badOptions

/-- The job record persisted in Redis after an `apply_tool` request:
`save_job` runs only in the `success` and `processingFailed` branches; every
other branch raises before saving, leaving the stored record unchanged. -/
def apply_persisted (jobId tool : String) (job : Job) (outcome : ToolOutcome) : Job :=
  match apply_tool jobId tool job outcome with
  | .success j _ => j
  | .processingFailed j => j
  | _ => job

/-- `undo` (src/routers/pdf.py, lines 519–535): decrement the cursor when
`cursor > 1`, otherwise leave the job unchanged.  Versions are never
touched. -/
def undo (job : Job) : Job :=
  if 1 < job.cursor then { job with cursor := job.cursor - 1 } else job

/-- `redo` (src/routers/pdf.py, lines 538–554): increment the cursor when
`cursor < len(versions)`, otherwise leave the job unchanged. -/
def redo (job : Job) : Job :=
  if job.cursor < job.versions.length then { job with cursor := job.cursor + 1 } else job

/-- The job invariants stated in the spec (§3): cursor in range, at most
`MAX_VERSIONS` versions, and version numbers contiguous starting at 1. -/
def JobInv (job : Job) : Prop :=
  1 ≤ job.cursor ∧ job.cursor ≤ job.versions.length ∧
    job.versions.length ≤ MAX_VERSIONS ∧
    job.versions.map Version.v = List.range' 1 job.versions.length

instance (job : Job) : Decidable (JobInv job) := by
  unfold JobInv; infer_instance

/-- A client-visible operation on an existing job, as dispatched by the
router: `apply` (with the tool name and its transformation outcome),
`undo`, `redo`. -/
inductive Op where
  | apply (tool : String) (outcome : ToolOutcome)
  | undo
  | redo
deriving DecidableEq, Repr

/-- One operation acting on (persisted job, list of version-file paths
written so far).  A successful apply appends the path its tool wrote;
no other operation writes a version file. -/
def step (jobId : String) (st : Job × List String) (op : Op) : Job × List String :=
  match op with
  | .undo => (Pdf.undo st.1, st.2)
  | .redo => (Pdf.redo st.1, st.2)
  | .apply tool outcome =>
    match apply_tool jobId tool st.1 outcome with
    | .success j w => (j, st.2 ++ [w])
    | .processingFailed j => (j, st.2)
    | _ => st

/-- Run a sequence of operations on a freshly created job.  `create_job`
itself writes version file 1 (src/routers/pdf.py, lines 331–335), so the
write trace starts with `version_path jobId 1`. -/
def run_from_create (jobId : String) (ops : List Op) : Job × List String :=
  ops.foldl (step jobId) (create_job jobId, [version_path jobId 1])

end Pdf

namespace PdfOps

/-- One component of a PDF box array as seen by `_safe_page_wh` /
`_safe_page_box`: either a value `float()` accepts, or not. -/
inductive PdfVal where
  | num (q : ℚ)
  | nonNumeric
deriving DecidableEq, Repr

/-- `float(v)` on one box component: `some` iff the conversion does not
raise. -/
def toFloat : PdfVal → Option ℚ
  | .num q => some q
  | .nonNumeric => none

/-- An in-memory PDF page as far as box resolution reads it: its
`/CropBox` and `/MediaBox` entries, each either absent or an array of
values. -/
structure Page where
  cropBox : Option (List PdfVal) := none
  mediaBox : Option (List PdfVal) := none
deriving DecidableEq, Repr

/-- Python's built-in `abs` on a rational. -/
def py_abs (q : ℚ) : ℚ :=
  if q < 0 then -q else q

/-- The `try:` block of `_safe_page_box` (src/routers/pdf.py, lines
631–642) and `_safe_page_wh` (src/processors/pdf_ops.py, lines 77–88):
`some (w, h)` iff the box has exactly four components, all of them
convert with `float`, and the absolute differences are both positive;
`none` models every path that returns the fallback. -/
def box_wh (box : List PdfVal) : Option (ℚ × ℚ) :=
  if box.length = 4 then
    match box.mapM toFloat with
    | some [x0, y0, x1, y1] =>
      let w := py_abs (x1 - x0)
      let h := py_abs (y1 - y0)
      if w ≤ 0 ∨ h ≤ 0 then none else some (w, h)
    | _ => none
  else none

/-- `_safe_page_box` (src/routers/pdf.py, lines 616–642), identical to
`_safe_page_wh` (src/processors/pdf_ops.py, lines 61–88): take the
`/CropBox` if present, otherwise the `/MediaBox`; parse the selected box,
falling back to `(595.0, 842.0)` on any failure. -/
def safe_page_box (page : Page) : ℚ × ℚ :=
  match page.cropBox.orElse (fun _ => page.mediaBox) with
  | none => (595, 842)
  | some box => (box_wh box).getD (595, 842)

/-- A box is valid in the spec's words (§4.1): exactly four numeric
components and strictly positive width and height after taking absolute
differences of opposite corners. -/
def spec_box_wh : List PdfVal → Option (ℚ × ℚ)
  | [.num x0, .num y0, .num x1, .num y1] =>
    if 0 < py_abs (x1 - x0) ∧ 0 < py_abs (y1 - y0) then
      some (py_abs (x1 - x0), py_abs (y1 - y0))
    else none
  | _ => none

/-- `resolvePageBox` exactly as the claim words it (spec §4.1): use the
crop box if present *and valid*; otherwise the media box if valid;
otherwise `(595.0, 842.0)`.  Stated only to be compared against the
code's `safe_page_box`. -/
def spec_resolvePageBox (page : Page) : ℚ × ℚ :=
  ((page.cropBox.bind spec_box_wh).orElse
      (fun _ => page.mediaBox.bind spec_box_wh)).getD (595, 842)

/-- Python `str.lower()`, character-wise (the family names involved are
ASCII, where `Char.toLower` agrees with Python). -/
def py_lower (s : String) : String :=
  ⟨s.data.map Char.toLower⟩

/-- Python `str.strip()`: drop whitespace from both ends. -/
def py_strip (s : String) : String :=
  ⟨((s.data.dropWhile Char.isWhitespace).reverse.dropWhile Char.isWhitespace).reverse⟩

/-- `_pick_font` (src/processors/pdf_ops.py, lines 102–132).  `base or
"Helvetica"` replaces only the empty (falsy) string. -/
def pick_font (base : String) (bold italic : Bool) : String :=
  let b := py_lower (py_strip (if base = "" then "Helvetica" else base))
  if b ∈ ["helvetica", "arial"] then
    if bold && italic then "Helvetica-BoldOblique"
    else if bold then "Helvetica-Bold"
    else if italic then "Helvetica-Oblique"
    else "Helvetica"
  else if b ∈ ["times", "times-roman", "timesroman", "times new roman"] then
    if bold && italic then "Times-BoldItalic"
    else if bold then "Times-Bold"
    else if italic then "Times-Italic"
    else "Times-Roman"
  else if b ∈ ["courier", "monospace", "mono"] then
    if bold && italic then "Courier-BoldOblique"
    else if bold then "Courier-Bold"
    else if italic then "Courier-Oblique"
    else "Courier"
  else if bold then "Helvetica-Bold" else "Helvetica"

/-- The twelve built-in variants of Helvetica, Times, and Courier that
`_pick_font` can return. -/
def builtin_fonts : List String :=
  ["Helvetica", "Helvetica-Bold", "Helvetica-Oblique", "Helvetica-BoldOblique",
   "Times-Roman", "Times-Bold", "Times-Italic", "Times-BoldItalic",
   "Courier", "Courier-Bold", "Courier-Oblique", "Courier-BoldOblique"]

/-- The family aliases `_pick_font` recognises (the three `in`-tuples of
src/processors/pdf_ops.py, lines 105, 114, 123), compared against the
stripped lower-cased family name. -/
def recognized_aliases : List String :=
  ["helvetica", "arial",
   "times", "times-roman", "timesroman", "times new roman",
   "courier", "monospace", "mono"]

/-- `_font_ascent` (src/processors/pdf_ops.py, lines 91–99), parametrised
by the external metric lookup `pdfmetrics.getAscent`: `none` models a
raised exception, and Python's `if asc:` makes a returned `0` fall through
to the `0.8 * size` default exactly like an exception does. -/
def font_ascent (getAscent : String → Option ℚ) (fontName : String) (fontSize : ℚ) : ℚ :=
  match getAscent fontName with
  | some asc => if asc ≠ 0 then asc / 1000 * fontSize else 0.8 * fontSize
  | none => 0.8 * fontSize

/-- The baseline Y coordinate `watermark_text` draws at
(src/processors/pdf_ops.py, lines 168 and 172–175): the font is resolved
with `_pick_font`, its ascent at the requested size is subtracted from
the caller-supplied top-origin `y`. -/
def watermark_text_y_baseline (getAscent : String → Option ℚ)
    (y : ℚ) (font : String) (bold italic : Bool) (fontSize : ℚ) : ℚ :=
  let fnt := pick_font font bold italic
  let ascent := font_ascent getAscent fnt fontSize
  y - ascent

end PdfOps

namespace Pdf

/-- Invariant carried along a run that starts at `create_job` and never
undoes: the job satisfies `JobInv`, its cursor sits at the end of the
version list, and the version files written so far are exactly the files
of versions `1 .. len(versions)`. -/
def RunGood (jobId : String) (st : Job × List String) : Prop :=
  JobInv st.1 ∧ st.1.cursor = st.1.versions.length ∧
    st.2 = (List.range' 1 st.1.versions.length).map (version_path jobId)

/-- A job with versions `[1,2,3]` and cursor 2 — the state reached by
create, two successful applies, and one undo (the situation of the
spec's truncate-on-edit example). -/
def undone_job : Job :=
  { status := "done", cursor := 2
    versions := [⟨1, version_path "j" 1⟩, ⟨2, version_path "j" 2⟩, ⟨3, version_path "j" 3⟩]
    lastTool := some "rotate", lastError := none }

/-- What `apply_tool` actually produces on `undone_job`: version number 3
is reused for the new version (and `v3.pdf` overwritten), cursor 3. -/
def undone_job_applied : Job :=
  { status := "done", cursor := 3
    versions := [⟨1, version_path "j" 1⟩, ⟨2, version_path "j" 2⟩, ⟨3, version_path "j" 3⟩]
    lastTool := some "rotate", lastError := none }

/-- A job with four versions, cursor at the end. -/
def four_job : Job :=
  { status := "done", cursor := 4
    versions := [⟨1, version_path "j" 1⟩, ⟨2, version_path "j" 2⟩,
                 ⟨3, version_path "j" 3⟩, ⟨4, version_path "j" 4⟩]
    lastTool := some "rotate", lastError := none }

/-- The successful apply on `four_job`: five versions, cursor 5. -/
def four_job_applied : Job :=
  { status := "done", cursor := 5
    versions := [⟨1, version_path "j" 1⟩, ⟨2, version_path "j" 2⟩,
                 ⟨3, version_path "j" 3⟩, ⟨4, version_path "j" 4⟩, ⟨5, version_path "j" 5⟩]
    lastTool := some "rotate", lastError := none }

/-- The job produced by one successful apply on a fresh job. -/
def create_applied : Job :=
  { status := "done", cursor := 2
    versions := [⟨1, version_path "j" 1⟩, ⟨2, version_path "j" 2⟩]
    lastTool := some "rotate", lastError := none }

/-- A job with versions `[1,2]` and cursor 1 (one undo happened). -/
def undone_two_job : Job :=
  { status := "done", cursor := 1
    versions := [⟨1, version_path "j" 1⟩, ⟨2, version_path "j" 2⟩]
    lastTool := some "rotate", lastError := none }

/-- A job with versions `[1,2,3]` and cursor 3 — reached by create and two
successful applies; the state in which a `(page 1, dpi 144)` preview of
version 3 gets cached. -/
def three_job : Job :=
  { status := "done", cursor := 3
    versions := [⟨1, version_path "j" 1⟩, ⟨2, version_path "j" 2⟩, ⟨3, version_path "j" 3⟩]
    lastTool := some "rotate", lastError := none }

end Pdf

namespace PdfOps

/-- Whether `_pick_font` recognises the family name: its stripped,
lower-cased form is one of the nine aliases tested by the three `in`
checks. -/
def recognizedFamily (base : String) : Prop :=
  py_lower (py_strip (if base = "" then "Helvetica" else base)) ∈ recognized_aliases

instance (base : String) : Decidable (recognizedFamily base) := by
  unfold recognizedFamily
  infer_instance

/-- The page used to separate `_safe_page_box` from the claim's reading:
its crop box is present but malformed (three elements) while its media
box is valid. -/
def crop_malformed_page : Page :=
  { cropBox := some [.num 0, .num 0, .num 100]
    mediaBox := some [.num 0, .num 0, .num 200, .num 300] }

/-- A concrete instantiation of the external `pdfmetrics.getAscent`
interface used to exercise `_font_ascent`: the Helvetica ascent metric is
718 (in 1/1000 em), unknown fonts raise.  Matches the shape of the
reportlab metric table without being part of this repository. -/
def sample_ascent : String → Option ℚ :=
  fun n => if n = "Helvetica" then some 718 else none

/-- The code's box parse agrees everywhere with the spec's validity
wording ("exactly four numeric components, strictly positive width and
height after absolute differences"): the two differ only in how a box is
*selected*, not in how a selected box is judged. -/
theorem box_wh_eq_spec : ∀ box : List PdfVal, box_wh box = spec_box_wh box
  | [] => rfl
  | [a] => by cases a <;> rfl
  | [a, b] => by cases a <;> cases b <;> rfl
  | [a, b, c] => by cases a <;> cases b <;> cases c <;> rfl
  | [.nonNumeric, b, c, d] => by cases b <;> cases c <;> cases d <;> rfl
  | [.num _, .nonNumeric, c, d] => by cases c <;> cases d <;> rfl
  | [.num _, .num _, .nonNumeric, d] => by cases d <;> rfl
  | [.num _, .num _, .num _, .nonNumeric] => rfl
  | [.num x0, .num y0, .num x1, .num y1] => by
    show (if py_abs (x1 - x0) ≤ 0 ∨ py_abs (y1 - y0) ≤ 0 then (none : Option (ℚ × ℚ))
          else some (py_abs (x1 - x0), py_abs (y1 - y0))) =
        (if 0 < py_abs (x1 - x0) ∧ 0 < py_abs (y1 - y0) then
          some (py_abs (x1 - x0), py_abs (y1 - y0))
        else none)
    rcases le_or_lt (py_abs (x1 - x0)) 0 with hw | hw
    · rw [if_pos (Or.inl hw), if_neg (fun hcon => (not_lt.mpr hw) hcon.1)]
    · rcases le_or_lt (py_abs (y1 - y0)) 0 with hh | hh
      · rw [if_pos (Or.inr hh), if_neg (fun hcon => (not_lt.mpr hh) hcon.2)]
      · rw [if_neg (not_or.mpr ⟨not_le.mpr hw, not_le.mpr hh⟩), if_pos ⟨hw, hh⟩]
  | a :: b :: c :: d :: e :: rest => by
    have h4 : ¬((a :: b :: c :: d :: e :: rest).length = 4) := by
      simp [List.length_cons]
    unfold box_wh
    rw [if_neg h4]
    cases a <;> cases b <;> cases c <;> cases d <;> cases e <;> rfl

/-- C7 counterexample: on a page whose crop box is present but malformed
(three elements) while its media box is valid, the code returns the
fallback `(595, 842)` whereas the claim's resolution order (fall through
to the media box) would return `(200, 300)`. -/
theorem safe_page_box_ignores_media_counterexample :
    safe_page_box crop_malformed_page = (595, 842) ∧
    spec_resolvePageBox crop_malformed_page = (200, 300) ∧
    safe_page_box crop_malformed_page ≠ spec_resolvePageBox crop_malformed_page := by
  have h1 : safe_page_box crop_malformed_page = (595, 842) := by
    norm_num [safe_page_box, box_wh, crop_malformed_page, Option.orElse, toFloat]
  have h2 : spec_resolvePageBox crop_malformed_page = (200, 300) := by
    norm_num [spec_resolvePageBox, spec_box_wh, py_abs, crop_malformed_page,
      Option.orElse, Option.bind]
  refine ⟨h1, h2, by rw [h1, h2]; norm_num⟩

/-- C7 amended: page-box resolution is total and returns the crop box's
dimensions when the crop box is present and valid; when the crop box is
present but invalid it returns `(595, 842)` without consulting the media
box; only when the crop box is absent is the media box used (its
dimensions if valid, else `(595, 842)`); when both are absent it returns
`(595, 842)`.  Validity is the spec's: exactly four numeric components
with strictly positive width and height after absolute differences. -/
theorem safe_page_box_characterization (page : Page) :
    (∀ b, page.cropBox = some b → safe_page_box page = (spec_box_wh b).getD (595, 842)) ∧
    (page.cropBox = none → ∀ m, page.mediaBox = some m →
      safe_page_box page = (spec_box_wh m).getD (595, 842)) ∧
    (page.cropBox = none → page.mediaBox = none → safe_page_box page = (595, 842)) := by
  refine ⟨?_, ?_, ?_⟩
  · intro b hb
    simp [safe_page_box, hb, Option.orElse, box_wh_eq_spec]
  · intro hc m hm
    simp [safe_page_box, hc, hm, Option.orElse, box_wh_eq_spec]
  · intro hc hm
    simp [safe_page_box, hc, hm, Option.orElse]

/-- C7 witness: the characterization applied to the concrete page with the
malformed crop box. -/
theorem safe_page_box_characterization_witness :
    safe_page_box crop_malformed_page =
      (spec_box_wh [.num 0, .num 0, .num 100]).getD (595, 842) :=
  (safe_page_box_characterization crop_malformed_page).1 _ rfl

/-- C8: the baseline Y drawn by `watermark_text` is the caller-supplied
top-origin `y` minus the ascent of the resolved font at the requested
size, where the ascent is the font's metric (in 1/1000 em) scaled by the
size whenever the metric lookup yields a usable (nonzero) value, and
`0.8 * size` exactly when the lookup fails. -/
theorem watermark_text_baseline_conversion (getAscent : String → Option ℚ)
    (family : String) (bold italic : Bool) (y size asc : ℚ)
    (hasc : getAscent (pick_font family bold italic) = some asc) (h0 : asc ≠ 0) :
    watermark_text_y_baseline getAscent y family bold italic size = y - asc / 1000 * size ∧
    (∀ g : String → Option ℚ, g (pick_font family bold italic) = none →
      watermark_text_y_baseline g y family bold italic size = y - 0.8 * size) := by
  constructor
  · simp only [watermark_text_y_baseline]
    unfold font_ascent
    rw [hasc]
    simp [h0]
  · intro g hg
    simp only [watermark_text_y_baseline]
    unfold font_ascent
    rw [hg]

/-- C8 witness: Helvetica at size 32 with the sample metric table. -/
theorem watermark_text_baseline_conversion_witness :
    watermark_text_y_baseline sample_ascent 100 "Helvetica" false false 32 =
      100 - 718 / 1000 * 32 :=
  (watermark_text_baseline_conversion sample_ascent "Helvetica" false false 100 32 718
    (by decide) (by decide)).1

/-- C9 counterexample: "Comic Sans MS" is not a recognised alias, yet with
`bold = false` the resolver returns plain `"Helvetica"`, not a bold face —
so unrecognised families do not map to a bold sans-serif face regardless
of the bold flag. -/
theorem pick_font_unrecognized_counterexample :
    ¬ recognizedFamily "Comic Sans MS" ∧
    pick_font "Comic Sans MS" false false = "Helvetica" ∧
    "Helvetica" ≠ "Helvetica-Bold" := by
  refine ⟨by decide, by decide, by decide⟩

/-- C9 amended: font resolution always lands in the twelve built-in
variants of Helvetica, Times, and Courier, and an unrecognised family
falls back to `Helvetica-Bold` when the bold flag is set and to plain
`Helvetica` otherwise. -/
theorem pick_font_builtin_and_default (base : String) (bold italic : Bool) :
    pick_font base bold italic ∈ builtin_fonts ∧
    (¬ recognizedFamily base →
      pick_font base bold italic = if bold then "Helvetica-Bold" else "Helvetica") := by
  constructor
  · simp only [pick_font]
    split_ifs <;> decide
  · intro h
    unfold recognizedFamily at h
    simp only [pick_font]
    rw [if_neg, if_neg, if_neg]
    · simp [recognized_aliases] at h
      intro hb
      simp [List.mem_cons] at hb
      tauto
    · simp [recognized_aliases] at h
      intro hb
      simp [List.mem_cons] at hb
      tauto
    · simp [recognized_aliases] at h
      intro hb
      simp [List.mem_cons] at hb
      tauto

/-- C9 witness: the resolver applied to an unrecognised family with the
bold flag set. -/
theorem pick_font_builtin_and_default_witness :
    pick_font "Comic Sans MS" true false ∈ builtin_fonts ∧
    (¬ recognizedFamily "Comic Sans MS" →
      pick_font "Comic Sans MS" true false = if true then "Helvetica-Bold" else "Helvetica") :=
  pick_font_builtin_and_default "Comic Sans MS" true false

end PdfOps

namespace Pdf

/-- `take` on a `range'` with step 1. -/
theorem take_range' (s m n : Nat) :
    (List.range' s n).take m = List.range' s (min m n) := by
  rw [List.range'_eq_map_range, ← List.map_take, List.take_range, ← List.range'_eq_map_range]

/-- Under the invariant, the redo-tail truncation leaves exactly `cursor`
versions. -/
theorem trunc_length (job : Job) (h : JobInv job) : (trunc job).length = job.cursor := by
  obtain ⟨h1, h2, h3, h4⟩ := h
  unfold trunc
  split
  · simp only [List.length_take]
    omega
  · omega

/-- Under the invariant, the truncated version list carries numbers
`1 .. cursor`. -/
theorem trunc_map_v (job : Job) (h : JobInv job) :
    (trunc job).map Version.v = List.range' 1 job.cursor := by
  obtain ⟨h1, h2, h3, h4⟩ := h
  unfold trunc
  split
  · rw [List.map_take, h4, take_range', min_eq_left h2]
  · have hc : job.cursor = job.versions.length := by omega
    rw [h4, hc]

/-- Under the invariant, the truncated list is nonempty and its last
version number is `cursor`. -/
theorem trunc_getLast_v (job : Job) (h : JobInv job) :
    ∃ last, (trunc job).getLast? = some last ∧ last.v = job.cursor := by
  have hm := trunc_map_v job h
  have h1 : 1 ≤ job.cursor := h.1
  have hlast := congrArg List.getLast? hm
  rw [List.getLast?_map, List.getLast?_range', if_neg (by omega)] at hlast
  match hl : (trunc job).getLast? with
  | none =>
    rw [hl] at hlast
    simp at hlast
  | some last =>
    rw [hl] at hlast
    simp only [Option.map_some'] at hlast
    refine ⟨last, rfl, ?_⟩
    have : last.v = 1 + job.cursor - 1 := Option.some.inj hlast
    omega

/-- `version_path` is injective in the version number for the numbers the
pipeline can produce (at most `MAX_VERSIONS`). -/
theorem version_path_inj_small (jobId : String) {a b : Nat}
    (ha1 : 1 ≤ a) (ha5 : a ≤ 5) (hb1 : 1 ≤ b) (hb5 : b ≤ 5)
    (h : version_path jobId a = version_path jobId b) : a = b := by
  have hd := congrArg String.data h
  simp only [version_path, job_folder, String.data_append, List.append_assoc,
    List.append_cancel_left_eq] at hd
  interval_cases a <;> interval_cases b <;> first
    | rfl
    | (revert hd; decide)

end Pdf

namespace Pdf

/-- What a successful apply computes, for any job satisfying the
invariant whose truncated list is below the version cap: the new version
number is `cursor + 1` (one above the number at the cursor), appended
after the truncated list, with the cursor moved to the new end. -/
theorem apply_tool_ok_eq (jobId tool : String) (job : Job) (h : JobInv job)
    (hlen : (trunc job).length < MAX_VERSIONS) (htool : tool ∈ applyTools) :
    apply_tool jobId tool job .ok = .success
      { job with versions := trunc job ++ [⟨job.cursor + 1, version_path jobId (job.cursor + 1)⟩],
                 cursor := (trunc job).length + 1,
                 lastTool := some tool, lastError := none }
      (version_path jobId (job.cursor + 1)) := by
  obtain ⟨last, hl, hv⟩ := trunc_getLast_v job h
  have hmerge : tool ≠ "merge" := by
    rintro rfl
    revert htool
    decide
  simp only [apply_tool]
  rw [if_neg (not_le.mpr hlen), hl]
  dsimp only
  rw [if_neg hmerge, if_pos htool]
  rw [hv]
  simp [List.length_append]

/-- What a processing failure persists, for any job satisfying the
invariant whose truncated list is below the version cap: the truncated
versions with `status = "failed"`; no version is appended. -/
theorem apply_tool_exception_eq (jobId tool msg : String) (job : Job) (h : JobInv job)
    (hlen : (trunc job).length < MAX_VERSIONS) (htool : tool ∈ applyTools) :
    apply_tool jobId tool job (.exception msg) = .processingFailed
      { job with versions := trunc job, status := "failed",
                 lastTool := some tool, lastError := some msg } := by
  obtain ⟨last, hl, hv⟩ := trunc_getLast_v job h
  have hmerge : tool ≠ "merge" := by
    rintro rfl
    revert htool
    decide
  simp only [apply_tool]
  rw [if_neg (not_le.mpr hlen), hl]
  dsimp only
  rw [if_neg hmerge, if_pos htool]

/-- Inversion: a `success` result can only come from the normal-return
branch, and fully determines the saved job. -/
theorem apply_tool_inv_success {jobId tool : String} {job : Job} {outcome : ToolOutcome}
    {j : Job} {w : String} (h : apply_tool jobId tool job outcome = .success j w) :
    outcome = .ok ∧ tool ∈ applyTools ∧ (trunc job).length < MAX_VERSIONS ∧
    ∃ last, (trunc job).getLast? = some last ∧
      w = version_path jobId (last.v + 1) ∧
      j = { job with versions := trunc job ++ [⟨last.v + 1, w⟩],
                     cursor := (trunc job).length + 1,
                     lastTool := some tool, lastError := none } := by
  simp only [apply_tool] at h
  split at h
  · simp at h
  next hlen =>
    split at h
    · simp at h
    next last heq =>
      split at h
      · simp at h
      next hmerge =>
        split at h
        next htool =>
          split at h
          · simp only [ApplyResult.success.injEq] at h
            obtain ⟨hj, hw⟩ := h
            subst hw
            refine ⟨rfl, htool, not_le.mp hlen, last, heq, rfl, ?_⟩
            rw [← hj]
            simp [List.length_append]
          · simp at h
          · simp at h
        · simp at h

/-- Inversion: a `processingFailed` result can only come from the
generic-exception branch, and fully determines the saved job. -/
theorem apply_tool_inv_failed {jobId tool : String} {job : Job} {outcome : ToolOutcome}
    {j : Job} (h : apply_tool jobId tool job outcome = .processingFailed j) :
    tool ∈ applyTools ∧ (trunc job).length < MAX_VERSIONS ∧
    ∃ msg, outcome = .exception msg ∧
      j = { job with versions := trunc job, status := "failed",
                     lastTool := some tool, lastError := some msg } := by
  simp only [apply_tool] at h
  split at h
  · simp at h
  next hlen =>
    split at h
    · simp at h
    next last heq =>
      split at h
      · simp at h
      next hmerge =>
        split at h
        next htool =>
          split at h
          · simp at h
          · simp at h
          next msg =>
            simp only [ApplyResult.processingFailed.injEq] at h
            exact ⟨htool, not_le.mp hlen, msg, rfl, h.symm⟩
        · simp at h

end Pdf

namespace Pdf

/-- Everything a successful apply guarantees on an invariant-satisfying
job: the new cursor sits at the new end, the new version is numbered
`cursor + 1` (one above the last surviving version), the written file is
its `version_path`, and the invariant is preserved. -/
theorem apply_success_spec {jobId tool : String} {job : Job} {outcome : ToolOutcome}
    {j : Job} {w : String} (h : JobInv job)
    (hres : apply_tool jobId tool job outcome = .success j w) :
    JobInv j ∧ j.cursor = j.versions.length ∧ j.cursor = job.cursor + 1 ∧
    w = version_path jobId (job.cursor + 1) ∧
    j.versions.map Version.v = List.range' 1 (job.cursor + 1) ∧
    j.versions = trunc job ++ [⟨job.cursor + 1, w⟩] ∧
    j.status = job.status := by
  obtain ⟨-, htool, hlen, last, heq, hw, hj⟩ := apply_tool_inv_success hres
  obtain ⟨last', hl', hv'⟩ := trunc_getLast_v job h
  rw [heq] at hl'
  have hee : last = last' := Option.some.inj hl'
  have hv : last.v = job.cursor := by rw [hee]; exact hv'
  have hl := trunc_length job h
  have h5 : MAX_VERSIONS = 5 := rfl
  subst hj
  subst hw
  refine ⟨⟨?_, ?_, ?_, ?_⟩, ?_, ?_, ?_, ?_, ?_, rfl⟩
  · dsimp only
    omega
  · simp [List.length_append]
  · simp only [List.length_append, List.length_cons, List.length_nil]
    omega
  · simp only [List.map_append, List.map_cons, List.map_nil, List.length_append,
      List.length_cons, List.length_nil]
    rw [trunc_map_v job h, hv, hl]
    rw [List.range'_1_concat]
    simp [Nat.add_comm]
  · simp [List.length_append]
  · simp only []
    rw [hl]
  · rw [hv]
  · simp only [List.map_append, List.map_cons, List.map_nil]
    rw [trunc_map_v job h, hv]
    rw [List.range'_1_concat]
    simp [Nat.add_comm]
  · rw [hv]

/-- Everything a processing failure persists on an invariant-satisfying
job: the truncated versions with the cursor unchanged (which now sits at
the end), `status = "failed"`, and the invariant preserved. -/
theorem apply_failed_spec {jobId tool : String} {job : Job} {outcome : ToolOutcome} {j : Job}
    (h : JobInv job) (hres : apply_tool jobId tool job outcome = .processingFailed j) :
    JobInv j ∧ j.cursor = j.versions.length ∧ j.versions = trunc job ∧
    j.status = "failed" ∧ j.cursor = job.cursor ∧ j.versions.length = job.cursor := by
  obtain ⟨htool, hlen, msg, -, hj⟩ := apply_tool_inv_failed hres
  have hl := trunc_length job h
  subst hj
  refine ⟨⟨h.1, ?_, le_of_lt hlen, ?_⟩, ?_, rfl, rfl, rfl, hl⟩
  · dsimp only
    omega
  · rw [trunc_map_v job h, hl]
  · exact hl.symm

end Pdf

namespace Pdf

/-- C1 counterexample: starting from versions `[1,2,3]` with cursor 2
(reachable by create, two applies, one undo), a successful apply yields
version numbers `[1,2,3]` with cursor 3 — the new version reuses number 3
(`new_v = versions[-1].v + 1` is computed after the truncation), it is
not numbered 4 as the claim requires. -/
theorem apply_after_undo_counterexample :
    undo (run_from_create "j" [Op.apply "rotate" .ok, Op.apply "rotate" .ok]).1 = undone_job ∧
    JobInv undone_job ∧ undone_job.cursor = 2 ∧
    undone_job.versions.map Version.v = [1, 2, 3] ∧
    apply_tool "j" "rotate" undone_job .ok =
      .success undone_job_applied (version_path "j" 3) ∧
    undone_job_applied.cursor = 3 ∧
    undone_job_applied.versions.map Version.v = [1, 2, 3] ∧
    undone_job_applied.versions.map Version.v ≠ [1, 2, 4] := by
  refine ⟨by decide, by decide, rfl, by decide, by decide, rfl, by decide, by decide⟩

/-- C1 amended: for every job satisfying the invariants whose cursor is
behind the end of the version list (an undo happened), a successful apply
first discards the versions after the cursor and then appends a new
version numbered one greater than the version at the cursor — the last
number surviving the truncation, not the maximum that ever existed — and
moves the cursor to the new end; from `[1,2,3]` with cursor 2 this gives
version numbers `[1,2,3]` (file `v3.pdf` rewritten) with cursor 3. -/
theorem apply_after_undo_truncates_and_appends (jobId tool : String) (job : Job)
    (hinv : JobInv job) (hcur : job.cursor < job.versions.length)
    (htool : tool ∈ applyTools) :
    apply_tool jobId tool job .ok = .success
      { job with versions := job.versions.take job.cursor ++
                   [Version.mk (job.cursor + 1) (version_path jobId (job.cursor + 1))],
                 cursor := job.cursor + 1,
                 lastTool := some tool, lastError := none }
      (version_path jobId (job.cursor + 1)) ∧
    (job.versions.take job.cursor ++
        [Version.mk (job.cursor + 1) (version_path jobId (job.cursor + 1))]).map Version.v =
      List.range' 1 (job.cursor + 1) := by
  have h5 : MAX_VERSIONS = 5 := rfl
  have hlen : (trunc job).length < MAX_VERSIONS := by
    rw [trunc_length job hinv]
    have h2 := hinv.2.1
    have h3 := hinv.2.2.1
    omega
  have htr : trunc job = job.versions.take job.cursor := by
    unfold trunc
    rw [if_pos hcur]
  have happ := apply_tool_ok_eq jobId tool job hinv hlen htool
  rw [trunc_length job hinv, htr] at happ
  refine ⟨happ, ?_⟩
  rw [← htr, List.map_append, trunc_map_v job hinv]
  rw [List.range'_1_concat]
  simp [Nat.add_comm]

/-- C1 witness: the amended statement at the concrete job `[1,2,3]`,
cursor 2. -/
theorem apply_after_undo_truncates_and_appends_witness :
    apply_tool "j" "rotate" undone_job .ok = .success
      { undone_job with
          versions := undone_job.versions.take undone_job.cursor ++
            [Version.mk (undone_job.cursor + 1) (version_path "j" (undone_job.cursor + 1))],
          cursor := undone_job.cursor + 1,
          lastTool := some "rotate", lastError := none }
      (version_path "j" (undone_job.cursor + 1)) ∧
    (undone_job.versions.take undone_job.cursor ++
        [Version.mk (undone_job.cursor + 1) (version_path "j" (undone_job.cursor + 1))]).map
        Version.v =
      List.range' 1 (undone_job.cursor + 1) :=
  apply_after_undo_truncates_and_appends "j" "rotate" undone_job (by decide) (by decide)
    (by decide)

/-- C4: every operation — create, apply (whatever the tool's outcome:
success, validation error, or processing failure, looking at the job
record that ends up persisted), undo, and redo — preserves the job
invariants `1 <= cursor <= len(versions)`, `len(versions) <= 5`, and
contiguous version numbers starting at 1. -/
theorem operations_preserve_invariants (jobId tool : String) (job : Job)
    (outcome : ToolOutcome) (hinv : JobInv job) :
    JobInv (create_job jobId) ∧ JobInv (undo job) ∧ JobInv (redo job) ∧
    JobInv (apply_persisted jobId tool job outcome) := by
  obtain ⟨h1, h2, h3, h4⟩ := hinv
  have hinv : JobInv job := ⟨h1, h2, h3, h4⟩
  refine ⟨?_, ?_, ?_, ?_⟩
  · refine ⟨le_refl 1, ?_, ?_, ?_⟩ <;> simp [create_job, MAX_VERSIONS]
  · unfold undo
    split
    · exact ⟨by dsimp only; omega, by dsimp only; omega, h3, h4⟩
    · exact ⟨h1, h2, h3, h4⟩
  · unfold redo
    split
    · next hlt => exact ⟨by dsimp only; omega, by dsimp only; omega, h3, h4⟩
    · exact ⟨h1, h2, h3, h4⟩
  · unfold apply_persisted
    rcases hres : apply_tool jobId tool job outcome with ⟨j, w⟩ | - | - | - | j
    · exact (apply_success_spec hinv hres).1
    · exact hinv
    · exact hinv
    · exact hinv
    · exact (apply_failed_spec hinv hres).1

/-- C4 witness: the preservation statement at a concrete four-version
job with a successful rotate. -/
theorem operations_preserve_invariants_witness :
    JobInv (create_job "j") ∧ JobInv (undo four_job) ∧ JobInv (redo four_job) ∧
    JobInv (apply_persisted "j" "rotate" four_job .ok) :=
  operations_preserve_invariants "j" "rotate" four_job .ok (by decide)

end Pdf

namespace Pdf

/-- C5 counterexample: an apply that makes the version count *reach* the
maximum of 5 is not rejected — on `four_job` (four versions, cursor 4,
invariants satisfied) the apply succeeds and produces five versions; only
an apply attempted from five versions is rejected with the version-limit
error. -/
theorem apply_reaching_limit_counterexample :
    JobInv four_job ∧ four_job.versions.length = 4 ∧
    apply_tool "j" "rotate" four_job .ok =
      .success four_job_applied (version_path "j" 5) ∧
    four_job_applied.versions.length = MAX_VERSIONS ∧
    apply_tool "j" "rotate" four_job_applied .ok = .versionLimit := by
  refine ⟨by decide, rfl, by decide, rfl, by decide⟩

/-- C5 amended: an apply is rejected with the version-limit error exactly
when the version count after discarding the redo tail has already reached
the maximum of 5 (so appending would exceed it); reaching 5 by the append
itself is allowed.  The rejection happens before the transformation runs
(it does not depend on the tool's outcome) and persists nothing, so the
cap is a client-visible error rather than silent eviction. -/
theorem apply_version_limit_characterization (jobId tool : String) (job : Job)
    (outcome : ToolOutcome) :
    (apply_tool jobId tool job outcome = .versionLimit ↔
      MAX_VERSIONS ≤ (trunc job).length) ∧
    (MAX_VERSIONS ≤ (trunc job).length →
      apply_persisted jobId tool job outcome = job) := by
  constructor
  · constructor
    · intro h
      simp only [apply_tool] at h
      split at h
      · assumption
      · split at h
        · simp at h
        · split at h
          · simp at h
          · split at h
            · split at h
              · simp at h
              · simp at h
              · simp at h
            · simp at h
    · intro hle
      simp only [apply_tool]
      rw [if_pos hle]
  · intro hle
    unfold apply_persisted
    simp only [apply_tool]
    rw [if_pos hle]

/-- C5 witness: the characterization at a concrete five-version job. -/
theorem apply_version_limit_characterization_witness :
    (apply_tool "j" "rotate" four_job_applied .ok = .versionLimit ↔
      MAX_VERSIONS ≤ (trunc four_job_applied).length) ∧
    (MAX_VERSIONS ≤ (trunc four_job_applied).length →
      apply_persisted "j" "rotate" four_job_applied .ok = four_job_applied) :=
  apply_version_limit_characterization "j" "rotate" four_job_applied .ok

/-- C6: after a successful apply, undo followed by redo restores exactly
the job record the apply produced (hence the same cursor and active
version); moreover, for every job, undo and redo never change the
versions list, undo decrements the cursor only when `cursor > 1` and is a
no-op otherwise, and redo increments it only when
`cursor < len(versions)` and is a no-op otherwise. -/
theorem apply_undo_redo_roundtrip (jobId tool : String) (job j : Job) (w : String)
    (h : apply_tool jobId tool job .ok = .success j w) :
    redo (undo j) = j ∧
    (redo (undo j)).cursor = j.cursor ∧
    (redo (undo j)).active_version = j.active_version ∧
    (∀ job' : Job,
      (undo job').versions = job'.versions ∧ (redo job').versions = job'.versions ∧
      (1 < job'.cursor → (undo job').cursor = job'.cursor - 1) ∧
      (job'.cursor ≤ 1 → undo job' = job') ∧
      (job'.cursor < job'.versions.length → (redo job').cursor = job'.cursor + 1) ∧
      (job'.versions.length ≤ job'.cursor → redo job' = job')) := by
  obtain ⟨-, -, -, last, heq, hw, hj⟩ := apply_tool_inv_success h
  have hlen1 : 1 ≤ (trunc job).length := by
    cases htr : trunc job with
    | nil => rw [htr] at heq; simp at heq
    | cons a l => simp
  have hcurj : j.cursor = (trunc job).length + 1 := by rw [hj]
  have hlenj : j.versions.length = (trunc job).length + 1 := by
    rw [hj]
    simp [List.length_append]
  have hround : redo (undo j) = j := by
    have h1 : 1 < j.cursor := by omega
    have hundo : undo j = { j with cursor := j.cursor - 1 } := by
      unfold undo
      rw [if_pos h1]
    have hredo : redo { j with cursor := j.cursor - 1 } =
        { j with cursor := j.cursor - 1 + 1 } := by
      unfold redo
      rw [if_pos (by dsimp only; omega)]
    rw [hundo, hredo]
    have harith : j.cursor - 1 + 1 = j.cursor := by omega
    rw [harith]
  refine ⟨hround, by rw [hround], by rw [hround], ?_⟩
  intro job'
  refine ⟨?_, ?_, ?_, ?_, ?_, ?_⟩
  · unfold undo
    split <;> rfl
  · unfold redo
    split <;> rfl
  · intro hc
    unfold undo
    rw [if_pos hc]
  · intro hc
    unfold undo
    rw [if_neg (by omega)]
  · intro hc
    unfold redo
    rw [if_pos hc]
  · intro hc
    unfold redo
    rw [if_neg (by omega)]

/-- C6 witness: the round trip at the concrete state reached by one
successful apply on a fresh job. -/
theorem apply_undo_redo_roundtrip_witness :
    redo (undo create_applied) = create_applied ∧
    (redo (undo create_applied)).cursor = create_applied.cursor ∧
    (redo (undo create_applied)).active_version = create_applied.active_version ∧
    (∀ job' : Job,
      (undo job').versions = job'.versions ∧ (redo job').versions = job'.versions ∧
      (1 < job'.cursor → (undo job').cursor = job'.cursor - 1) ∧
      (job'.cursor ≤ 1 → undo job' = job') ∧
      (job'.cursor < job'.versions.length → (redo job').cursor = job'.cursor + 1) ∧
      (job'.versions.length ≤ job'.cursor → redo job' = job')) :=
  apply_undo_redo_roundtrip "j" "rotate" (create_job "j") create_applied
    (version_path "j" 2) (by decide)

/-- C10: when apply runs on a job whose cursor is behind the end of the
version list and the tool raises a generic processing failure, the
persisted record keeps the truncation — every version after the cursor is
gone for good — with `status = "failed"` and no new version appended, so
apply is not atomic on processing error with respect to the versions
list. -/
theorem apply_failure_loses_redo_history (jobId tool msg : String) (job : Job)
    (hinv : JobInv job) (hcur : job.cursor < job.versions.length)
    (htool : tool ∈ applyTools) :
    apply_tool jobId tool job (.exception msg) = .processingFailed
      { job with versions := job.versions.take job.cursor, status := "failed",
                 lastTool := some tool, lastError := some msg } ∧
    apply_persisted jobId tool job (.exception msg) =
      { job with versions := job.versions.take job.cursor, status := "failed",
                 lastTool := some tool, lastError := some msg } ∧
    (job.versions.take job.cursor).length = job.cursor ∧
    job.versions.take job.cursor ≠ job.versions := by
  have h5 : MAX_VERSIONS = 5 := rfl
  have hlen : (trunc job).length < MAX_VERSIONS := by
    rw [trunc_length job hinv]
    have h2 := hinv.2.1
    have h3 := hinv.2.2.1
    omega
  have htr : trunc job = job.versions.take job.cursor := by
    unfold trunc
    rw [if_pos hcur]
  have happ := apply_tool_exception_eq jobId tool msg job hinv hlen htool
  rw [htr] at happ
  refine ⟨happ, ?_, ?_, ?_⟩
  · unfold apply_persisted
    rw [happ]
  · rw [← htr, trunc_length job hinv]
  · intro hcontra
    have hlencontra := congrArg List.length hcontra
    rw [← htr, trunc_length job hinv] at hlencontra
    omega

/-- C10 witness: the loss of redo history at the concrete job `[1,2]`
with cursor 1, whose rotate raises. -/
theorem apply_failure_loses_redo_history_witness :
    apply_tool "j" "rotate" undone_two_job (.exception "boom") = .processingFailed
      { undone_two_job with
          versions := undone_two_job.versions.take undone_two_job.cursor,
          status := "failed",
          lastTool := some "rotate", lastError := some "boom" } ∧
    apply_persisted "j" "rotate" undone_two_job (.exception "boom") =
      { undone_two_job with
          versions := undone_two_job.versions.take undone_two_job.cursor,
          status := "failed",
          lastTool := some "rotate", lastError := some "boom" } ∧
    (undone_two_job.versions.take undone_two_job.cursor).length = undone_two_job.cursor ∧
    undone_two_job.versions.take undone_two_job.cursor ≠ undone_two_job.versions :=
  apply_failure_loses_redo_history "j" "rotate" "boom" undone_two_job (by decide)
    (by decide) (by decide)

end Pdf

namespace Pdf

/-- A fresh job satisfies the run invariant. -/
theorem run_good_init (jobId : String) :
    RunGood jobId (create_job jobId, [version_path jobId 1]) := by
  refine ⟨⟨le_refl 1, ?_, ?_, ?_⟩, rfl, ?_⟩ <;> simp [create_job, MAX_VERSIONS]

/-- Any operation other than undo preserves the run invariant: without a
preceding undo the cursor stays at the end, no truncation ever removes a
version, and each successful apply writes the fresh path of version
`len + 1`. -/
theorem step_good (jobId : String) (st : Job × List String) (op : Op)
    (hop : op ≠ Op.undo) (h : RunGood jobId st) : RunGood jobId (step jobId st op) := by
  obtain ⟨hinv, hcl, htr⟩ := h
  match op with
  | .undo => exact absurd rfl hop
  | .redo =>
    have hr : Pdf.redo st.1 = st.1 := by
      unfold Pdf.redo
      rw [if_neg (by omega)]
    show RunGood jobId (Pdf.redo st.1, st.2)
    rw [hr]
    exact ⟨hinv, hcl, htr⟩
  | .apply tool outcome =>
    have hnotrunc : trunc st.1 = st.1.versions := by
      unfold trunc
      rw [if_neg (by omega)]
    show RunGood jobId
      (match apply_tool jobId tool st.1 outcome with
        | .success j w => (j, st.2 ++ [w])
        | .processingFailed j => (j, st.2)
        | _ => st)
    rcases hres : apply_tool jobId tool st.1 outcome with ⟨j, w⟩ | - | - | - | j
    · obtain ⟨hinvj, hclj, hcurj, hwv, hmapj, hversj, -⟩ := apply_success_spec hinv hres
      refine ⟨hinvj, hclj, ?_⟩
      show st.2 ++ [w] = (List.range' 1 j.versions.length).map (version_path jobId)
      have hlenj : j.versions.length = st.1.versions.length + 1 := by
        rw [hversj, List.length_append, hnotrunc]
        rfl
      rw [htr, hlenj, List.range'_1_concat, List.map_append]
      have hw1 : w = version_path jobId (1 + st.1.versions.length) := by
        rw [hwv, hcl, Nat.add_comm]
      rw [hw1]
      rfl
    · exact ⟨hinv, hcl, htr⟩
    · exact ⟨hinv, hcl, htr⟩
    · exact ⟨hinv, hcl, htr⟩
    · obtain ⟨hinvj, hclj, hversj, -, -, -⟩ := apply_failed_spec hinv hres
      refine ⟨hinvj, hclj, ?_⟩
      show st.2 = (List.range' 1 j.versions.length).map (version_path jobId)
      rw [hversj, hnotrunc]
      exact htr

/-- Folding any undo-free operation list preserves the run invariant. -/
theorem run_good (jobId : String) (ops : List Op)
    (h : ∀ op ∈ ops, op ≠ Op.undo) (st : Job × List String)
    (hst : RunGood jobId st) : RunGood jobId (ops.foldl (step jobId) st) := by
  induction ops generalizing st with
  | nil => simpa using hst
  | cons op rest ih =>
    rw [List.foldl_cons]
    exact ih (fun o ho => h o (List.mem_cons_of_mem _ ho)) _
      (step_good jobId st op (h op (List.mem_cons_self _ _)) hst)

/-- C2 counterexample: the operation sequence apply, undo, apply (all
successful) writes `v2.pdf` twice — the second apply reuses the path of
the truncated version 2, so version files are not immutable across
create/apply/undo/redo sequences. -/
theorem version_file_rewritten_counterexample :
    (run_from_create "j" [Op.apply "rotate" .ok, Op.undo, Op.apply "rotate" .ok]).2 =
      [version_path "j" 1, version_path "j" 2, version_path "j" 2] ∧
    ¬ (run_from_create "j" [Op.apply "rotate" .ok, Op.undo, Op.apply "rotate" .ok]).2.Nodup := by
  refine ⟨by decide, by decide⟩

/-- C2 amended: along every operation sequence that contains no undo, all
version-file writes target pairwise distinct paths (`v1.pdf, v2.pdf, …`);
immutability is violated only when an apply follows an undo, which reuses
the truncated versions' numbers and overwrites their files. -/
theorem version_writes_distinct_without_undo (jobId : String) (ops : List Op)
    (h : Op.undo ∉ ops) : (run_from_create jobId ops).2.Nodup := by
  have hg : RunGood jobId (run_from_create jobId ops) := by
    unfold run_from_create
    exact run_good jobId ops (fun o ho heq => h (heq ▸ ho)) _ (run_good_init jobId)
  obtain ⟨hinv, -, htrace⟩ := hg
  rw [htrace]
  have h5 : MAX_VERSIONS = 5 := rfl
  have hlen5 := hinv.2.2.1
  apply List.Nodup.map_on
  · intro x hx y hy hxy
    rw [List.mem_range'_1] at hx hy
    exact version_path_inj_small jobId hx.1 (by omega) hy.1 (by omega) hxy
  · exact List.nodup_range' _ _

/-- C2 witness: distinct writes along a two-apply run. -/
theorem version_writes_distinct_without_undo_witness :
    (run_from_create "j" [Op.apply "rotate" .ok, Op.apply "rotate" .ok]).2.Nodup :=
  version_writes_distinct_without_undo "j" [Op.apply "rotate" .ok, Op.apply "rotate" .ok]
    (by decide)

/-- C3 (violated by the code, contradicting the comment at
`preview_path`): reach versions `[1,2,3]` with cursor 3 by two applies
and cache a preview of `(page 1, dpi 144)` under key `v3_p1_dpi144.png`;
after an undo, a successful apply produces a job whose active version is
again numbered 3, so the preview request for the same `(page, dpi)`
computes exactly the cache key used before the apply and serves the stale
PNG of the superseded version instead of rendering afresh. -/
theorem preview_cache_key_collision :
    (run_from_create "j" [Op.apply "rotate" .ok, Op.apply "rotate" .ok]).1 = three_job ∧
    undo three_job = undone_job ∧
    apply_tool "j" "rotate" undone_job .ok =
      .success undone_job_applied (version_path "j" 3) ∧
    undone_job_applied.active_version = three_job.active_version ∧
    preview_path "j" undone_job_applied.active_version 1 144 =
      preview_path "j" three_job.active_version 1 144 := by
  refine ⟨by decide, by decide, by decide, by decide, by decide⟩

end Pdf
